import Mathlib

/-!
# Platform detection and guarded command execution

A shallow embedding of `genesyscloud/platform/platform.go`: the `Platform`
enumeration, the process-wide `platformConfig`, binary verification, the
sub-command allow-list, the command executor and the one-shot detection run by
`init`.

Everything the Go code asks of the operating system (parent-process lookup,
`os.Stat`, `os/exec`) is read from a `World` of explicit oracles; the effects
the code has on it are recorded in an explicit `State`.  Go strings are
embedded as Lean strings (well-formed Unicode text), a nil pointer or nil
interface as `none`.
-/

set_option autoImplicit false

namespace platform

/-! ## Values of the Go standard library used by the package -/

/-- Go `error` values.  `errorf` and `wrapf` are the two shapes of `fmt.Errorf`
used by the package (without and with a `%w` operand); the format string is kept
verbatim and the formatted operands next to it. -/
inductive Error where
  | errorf (format : String) (args : List String)
  | wrapf (format : String) (inner : Error)
  /-- The value `context.Canceled`. -/
  | Canceled
  /-- The value `context.DeadlineExceeded`. -/
  | DeadlineExceeded
  /-- An error produced by `os`, `os/exec` or `gopsutil`. -/
  | external (desc : String)
  deriving DecidableEq, Repr

deriving instance DecidableEq for Except

/-- Go `strings.HasPrefix`. -/
def HasPrefix (s pre : String) : Bool := pre.data.isPrefixOf s.data

/-- Go `strings.TrimPrefix`: `s` without the leading `pre`, or `s` itself when it
does not start with `pre`. -/
def TrimPrefix (s pre : String) : String :=
  if HasPrefix s pre then ⟨s.data.drop pre.data.length⟩ else s

/-- Whether `sub` occurs as a contiguous block somewhere in the given text. -/
def hasSub (sub : List Char) : List Char → Bool
  | [] => sub.isEmpty
  | c :: cs => sub.isPrefixOf (c :: cs) || hasSub sub cs

/-- Go `strings.Contains` (case-sensitive substring test). -/
def Contains (s sub : String) : Bool := hasSub sub.data s.data

/-- Lower-casing of one character on the letters `A`..`Z`. -/
def lowerChar (c : Char) : Char :=
  if 'A' ≤ c ∧ c ≤ 'Z' then Char.ofNat (c.toNat + 32) else c

/-- Go `strings.ToLower`, on the ASCII letters; other characters are kept. -/
def ToLower (s : String) : String := ⟨s.data.map lowerChar⟩

/-- The loop of Go `strings.genSplit` for a non-empty separator: `cur` holds
(reversed) the segment read so far, and `skip` counts the characters of a
separator just found that are still to be passed over. -/
def genSplit (sep : List Char) : Nat → List Char → List Char → List String
  | _, cur, [] => [⟨cur.reverse⟩]
  | skip + 1, cur, _ :: cs => genSplit sep skip cur cs
  | 0, cur, c :: cs =>
    if sep.isPrefixOf (c :: cs) then ⟨cur.reverse⟩ :: genSplit sep (sep.length - 1) [] cs
    else genSplit sep 0 (c :: cur) cs

/-- Go `strings.Split`: the segments of `s` between the occurrences of `sep`;
with an empty separator, the characters of `s`. -/
def Split (s sep : String) : List String :=
  if sep = "" then s.data.map String.singleton else genSplit sep.data 0 [] s.data

/-- Go `os.FileMode`, a `uint32` bit set. -/
abbrev FileMode := Nat

def ModeDir : FileMode := 2 ^ 31
def ModeSymlink : FileMode := 2 ^ 27
def ModeDevice : FileMode := 2 ^ 26
def ModeNamedPipe : FileMode := 2 ^ 25
def ModeSocket : FileMode := 2 ^ 24
def ModeCharDevice : FileMode := 2 ^ 21
def ModeIrregular : FileMode := 2 ^ 19

/-- Go `fs.ModeType`: the mask of the file-type bits. -/
def ModeType : FileMode :=
  ModeDir ||| ModeSymlink ||| ModeNamedPipe ||| ModeSocket ||| ModeDevice |||
    ModeCharDevice ||| ModeIrregular

/-- Go `fs.ModePerm`: the Unix permission bits. -/
def ModePerm : FileMode := 0o777

/-- Go `FileMode.IsRegular`: no file-type bit is set. -/
def FileMode.IsRegular (m : FileMode) : Bool := m &&& ModeType == 0

/-- Go `FileMode.Perm`. -/
def FileMode.Perm (m : FileMode) : FileMode := m &&& ModePerm

/-- Go `os.FileInfo`, of which the package reads the mode only. -/
structure FileInfo where
  mode : FileMode
  deriving DecidableEq, Repr

/-- Go `context.Context` as the package sees it: `err` is `ctx.Err()` at the
moment of the call, non-nil exactly when the context is already done
(`Canceled` after a cancel, `DeadlineExceeded` after its deadline). -/
structure Context where
  /-- Time left until the deadline, in nanoseconds; `none` without deadline. -/
  deadline : Option Nat
  err : Option Error
  deriving DecidableEq, Repr

/-- What one `(*exec.Cmd).Run` leaves behind. -/
structure RunResult where
  /-- Content of the buffer attached to `cmd.Stdout`. -/
  stdout : String
  /-- Content of the buffer attached to `cmd.Stderr`. -/
  stderr : String
  /-- The field `cmd.ProcessState`: `none` for nil, else its `ExitCode()`. -/
  processState : Option Int
  /-- The error returned by `Run`. -/
  err : Option Error
  /-- The value of `ctx.Err()` once `Run` has returned. -/
  ctxErr : Option Error
  deriving DecidableEq, Repr

/-- Go conversion `int32(x)`. -/
def int32 (x : Int) : Int := (x + 2 ^ 31) % 2 ^ 32 - 2 ^ 31

/-- The operating environment.  `stat` and `startProcess` take the time of the
call (the `clock` of the `State`), so the file system and the binary may change
between two calls. -/
structure World where
  /-- Result of `os.Getppid()`. -/
  getppid : Int
  /-- Go `os.FindProcess`, giving the `Pid` of the process found. -/
  findProcess : Int → Except Error Int
  /-- The gopsutil `process.NewProcess`, giving the `Pid` of the handle. -/
  newProcess : Int → Except Error Int
  /-- The gopsutil `(*Process).Exe`. -/
  exe : Int → Except Error String
  /-- Go `os.Stat` at a given time. -/
  stat : Nat → String → Except Error FileInfo
  /-- The error `exec.CommandContext` records in `cmd.Err` for a program name. -/
  commandErr : String → Option Error
  /-- The run of a child process handed to the system at a given time under a
  context that is not done yet: program path and full argument vector. -/
  startProcess : Nat → Context → String → List String → RunResult

/-- Effects of the package on its environment: the number of system calls made
so far and the requests made to the system to start a child process (command
name and argument vector), whether or not the start then succeeds. -/
structure State where
  clock : Nat
  spawned : List (String × List String)
  deriving DecidableEq, Repr

/-- Go `(*exec.Cmd).Run` for `exec.CommandContext(ctx, path)` with arguments
`argv`.  `Start` returns before any process exists, leaving `cmd.ProcessState`
nil, first when the command carries an error recorded at its construction
(`cmd.Err`), whatever the context, and then when the context is already done,
with `ctx.Err()`.  Otherwise the start of the command is requested from the
system. -/
def cmdRun (w : World) (s : State) (ctx : Context) (path : String) (argv : List String) :
    RunResult × State :=
  match w.commandErr path with
  | some e =>
    ({ stdout := "", stderr := "", processState := none, err := some e, ctxErr := ctx.err }, s)
  | none =>
    match ctx.err with
    | some e =>
      ({ stdout := "", stderr := "", processState := none, err := some e, ctxErr := some e }, s)
    | none =>
      (w.startProcess s.clock ctx path argv,
       { clock := s.clock + 1, spawned := s.spawned ++ [(path, argv)] })

/-- Result of a Go function that may panic, on a nil pointer dereference or on
an index out of range. -/
inductive Outcome (α : Type) where
  | returned (a : α)
  | nilDereference
  | indexOutOfRange
  deriving DecidableEq, Repr

/-! ## The package -/

/-- Go `type Platform int`. -/
structure Platform where
  val : Int
  deriving DecidableEq, Repr

/-- Go `type platformConfig struct`. -/
structure platformConfig where
  platform : Platform
  binaryPath : String
  providerAddr : String
  deriving DecidableEq, Repr

def PlatformUnknown : Platform := ⟨0⟩
def PlatformTerraform : Platform := ⟨1⟩
def PlatformOpenTofu : Platform := ⟨2⟩
def PlatformDebugServer : Platform := ⟨3⟩

/-- Go `type CommandOutput struct`. -/
structure CommandOutput where
  Stdout : String
  Stderr : String
  ExitCode : Int
  deriving DecidableEq, Repr

def GetPlatform (platformConfigSingleton : Option platformConfig) : Outcome Platform :=
  match platformConfigSingleton with
  | none => .nilDereference
  | some cfg => .returned cfg.platform

def detectExecutingBinary (w : World) : Except Error String :=
  match w.findProcess w.getppid with
  | .error err => .error err
  | .ok ppid =>
    match w.newProcess (int32 ppid) with
    | .error err => .error err
    | .ok tfProcess =>
      match w.exe tfProcess with
      | .error err => .error err
      | .ok exe => .ok exe

/-- The three checks of `verifyBinary` on the outcome of `os.Stat`. -/
def verifyStat : Except Error FileInfo → Option Error
  | .error err => some (.wrapf "failed to stat binary: %w" err)
  | .ok info =>
    if !info.mode.IsRegular then some (.errorf "binary path is not a regular file" [])
    else if info.mode.Perm &&& 0o111 == 0 then some (.errorf "binary is not executable" [])
    else none

def verifyBinary (w : World) (s : State) (path : String) : Option Error × State :=
  (verifyStat (w.stat s.clock path), { s with clock := s.clock + 1 })

/-- The map literal of `isAllowedCommand`. -/
def allowedCommands : List (String × Bool) :=
  [("init", true), ("plan", true), ("apply", true), ("destroy", true), ("validate", true),
   ("output", true), ("show", true), ("state", true), ("import", true), ("version", true),
   ("fmt", true), ("force-unlock", true), ("providers", true), ("login", true),
   ("logout", true), ("refresh", true), ("graph", true), ("taint", true), ("untaint", true),
   ("workspace", true), ("metadata", true), ("test", true), ("console", true)]

/-- Indexing a Go `map[string]bool`: the zero value `false` for a missing key. -/
def mapIndex (m : List (String × Bool)) (key : String) : Bool :=
  match m with
  | [] => false
  | (k, v) :: rest => if key = k then v else mapIndex rest key

def isAllowedCommand (cmd : String) : Bool :=
  mapIndex allowedCommands (TrimPrefix cmd "-")

def validateCommandArgs (args : List String) : Option Error :=
  match args with
  | [] => some (.errorf "no arguments provided" [])
  | command :: _ =>
    if !isAllowedCommand command then
      some (.errorf "command %q is not allowed" [command])
    else none

def executePlatformCommand (w : World) (s : State) (ctx : Option Context)
    (binaryPath : String) (args : List String) :
    (Option CommandOutput × Option Error) × State :=
  match ctx with
  | none => ((none, some (.errorf "nil context provided" [])), s)
  | some c =>
    match validateCommandArgs args with
    | some err => ((none, some (.wrapf "invalid arguments: %w" err)), s)
    | none =>
      match verifyBinary w s binaryPath with
      | (some err, s1) => ((none, some (.wrapf "binary verification failed: %w" err)), s1)
      | (none, s1) =>
        match cmdRun w s1 c binaryPath (binaryPath :: args) with
        | (r, s2) =>
          let output : CommandOutput :=
            { Stdout := r.stdout, Stderr := r.stderr,
              ExitCode := match r.processState with
                | some code => code
                | none => -1 }
          match r.err with
          | some err =>
            if r.ctxErr = some Error.DeadlineExceeded then ((some output, r.ctxErr), s2)
            else ((some output, some err), s2)
          | none => ((some output, none), s2)

/-- The method `ExecuteCommand` on receiver `p`. -/
def Platform.ExecuteCommand (platformConfigSingleton : Option platformConfig) (w : World)
    (s : State) (p : Platform) (ctx : Option Context) (args : List String) :
    Outcome ((Option CommandOutput × Option Error) × State) :=
  if p = PlatformDebugServer then
    .returned ((none, some (.errorf "cannot execute platform command against debug server" [])), s)
  else
    match platformConfigSingleton with
    | none => .nilDereference
    | some cfg =>
      if cfg.binaryPath = "" then
        .returned ((none, some (.errorf "binary path is empty" [])), s)
      else .returned (executePlatformCommand w s ctx cfg.binaryPath args)

def debugPatterns : List String := ["dlv", "debug"]

/-- Go `time.Second`, in nanoseconds. -/
def Second : Nat := 1000000000

/-- The package initialiser: the value it leaves in `platformConfigSingleton`
and the state of the environment afterwards. -/
def init (w : World) (s : State) : Outcome (platformConfig × State) :=
  let cfg0 : platformConfig := { platform := ⟨0⟩, binaryPath := "", providerAddr := "" }
  match detectExecutingBinary w with
  | .error _ => .returned ({ cfg0 with platform := PlatformUnknown }, s)
  | .ok path =>
    let cfg1 : platformConfig := { cfg0 with binaryPath := path }
    match verifyBinary w s cfg1.binaryPath with
    | (some _, s1) => .returned (cfg1, s1)
    | (none, s1) =>
      if debugPatterns.any (fun pattern => Contains cfg1.binaryPath pattern) then
        .returned ({ cfg1 with platform := PlatformDebugServer }, s1)
      else
        let ctx : Context := { deadline := some (10 * Second), err := none }
        match executePlatformCommand w s1 (some ctx) cfg1.binaryPath ["version"] with
        | ((_, some _), s2) => .returned (cfg1, s2)
        | ((none, none), _) => .nilDereference
        | ((some versionOutput, none), s2) =>
          if Contains (ToLower versionOutput.Stdout) "tofu" then
            .returned ({ cfg1 with platform := PlatformOpenTofu }, s2)
          else .returned ({ cfg1 with platform := PlatformTerraform }, s2)

/-- The method `BinaryPath`; the receiver `p` is not read. -/
def Platform.BinaryPath (platformConfigSingleton : Option platformConfig) (_p : Platform) :
    Outcome String :=
  match platformConfigSingleton with
  | none => .nilDereference
  | some cfg => .returned cfg.binaryPath

/-- The method `Binary`; `PathSeparator` is the constant `os.PathSeparator` of
the system the provider is built for.  The index `len(pathSegments)-1` is out
of range exactly when the list is empty, where the lookup below finds nothing. -/
def Platform.Binary (PathSeparator : Char) (platformConfigSingleton : Option platformConfig)
    (_p : Platform) : Outcome String :=
  match platformConfigSingleton with
  | none => .nilDereference
  | some cfg =>
    if cfg.binaryPath = "" then .returned ""
    else
      let pathSegments := Split cfg.binaryPath (String.singleton PathSeparator)
      match pathSegments[pathSegments.length - 1]? with
      | some segment => .returned segment
      | none => .indexOutOfRange

/-- The method `String`. -/
def Platform.String (p : Platform) : String :=
  if p = PlatformTerraform then "terraform"
  else if p = PlatformOpenTofu then "tofu"
  else if p = PlatformDebugServer then "debug-server"
  else "unknown"

def IsValidPlatform (p : Platform) : Bool :=
  if p = PlatformTerraform ∨ p = PlatformOpenTofu ∨ p = PlatformDebugServer then true
  else false

/-- The method `Validate`; the first argument is the package variable
`platformConfigSingleton` (`none` for a nil pointer). -/
def Platform.Validate (platformConfigSingleton : Option platformConfig) (p : Platform) :
    Option Error :=
  if !IsValidPlatform p then
    some (.errorf "Invalid platform value detected: %v. This is an error of the terraform-provider-genesyscloud provider. This may indicate the provider is running in an unsupported environment. Please ensure you're using a supported operating system and architecture." [p.String])
  else
    match platformConfigSingleton with
    | none =>
      some (.errorf "Platform configuration is not initialized. This is likely an internal provider error. Please file a bug report if this persists in the terraform-provider-genesyscloud issues list." [])
    | some cfg =>
      if cfg.binaryPath = "" then
        some (.errorf "Unable to determine provider binary path. This may indicate incorrect provider installation or an unsupported execution environment. Please verify your provider installation is complete." [])
      else none

/-! ## A file system behind `os.Stat` -/

/-- An entry of a file system: a regular file or a directory with its
permission bits, or a symbolic link with its (resolved) target path. -/
inductive Node where
  | file (perm : Nat)
  | dir (perm : Nat)
  | symlink (target : String)
  deriving DecidableEq, Repr

/-- A file system: the entry found at each path, if any. -/
abbrev FS := String → Option Node

/-- Go `os.Lstat`: describes the entry itself, a link included. -/
def osLstat (fs : FS) (path : String) : Except Error FileInfo :=
  match fs path with
  | none => .error (.external "no such file or directory")
  | some (.file perm) => .ok ⟨perm &&& ModePerm⟩
  | some (.dir perm) => .ok ⟨ModeDir ||| (perm &&& ModePerm)⟩
  | some (.symlink _) => .ok ⟨ModeSymlink ||| ModePerm⟩

/-- Following at most `n` symbolic links from `path`, then describing the entry. -/
def statFollow (fs : FS) : Nat → String → Except Error FileInfo
  | 0, path =>
    match fs path with
    | some (.symlink _) => .error (.external "too many levels of symbolic links")
    | _ => osLstat fs path
  | n + 1, path =>
    match fs path with
    | some (.symlink target) => statFollow fs n target
    | _ => osLstat fs path

/-- Go `os.Stat`: describes the file a path leads to, following symbolic links
(at most 40 of them, the limit of the system call). -/
def osStat (fs : FS) (path : String) : Except Error FileInfo := statFollow fs 40 path

/-- A world whose `os.Stat` reads a fixed file system; nothing else is
available in it. -/
def fsWorld (fs : FS) : World where
  getppid := 1
  findProcess := fun _ => .error (.external "os: process not found")
  newProcess := fun _ => .error (.external "process does not exist")
  exe := fun _ => .error (.external "no such file or directory")
  stat := fun _ path => osStat fs path
  commandErr := fun _ => none
  startProcess := fun _ _ _ _ =>
    { stdout := "", stderr := "", processState := none,
      err := some (.external "fork/exec: resource temporarily unavailable"), ctxErr := none }

/-- A world for examples: the parent process runs `exePath`, every `os.Stat`
gives `info` and every child process ends as `r`. -/
def simpleWorld (exePath : String) (info : Except Error FileInfo) (r : RunResult) : World where
  getppid := 4242
  findProcess := fun pid => .ok pid
  newProcess := fun pid => .ok pid
  exe := fun _ => .ok exePath
  stat := fun _ _ => info
  commandErr := fun _ => none
  startProcess := fun _ _ _ _ => r

/-- A child process that prints `out` and exits with status 0. -/
def exitsZero (out : String) : RunResult :=
  { stdout := out, stderr := "", processState := some 0, err := none, ctxErr := none }

/-- A context that is not done, without deadline. -/
def liveContext : Context := { deadline := none, err := none }

/-- The sub-commands the specification lists as allowed. -/
def allowListedSubcommands : List String :=
  ["init", "plan", "apply", "destroy", "validate", "output", "show", "state", "import",
   "version", "fmt", "force-unlock", "providers", "login", "logout", "refresh", "graph",
   "taint", "untaint", "workspace", "metadata", "test", "console"]

/-- A file system with a symbolic link to an executable, a directory and a
regular file without execute bits. -/
def linkFS : FS := fun path =>
  if path = "/usr/local/bin/terraform" then some (.symlink "/opt/terraform/terraform")
  else if path = "/opt/terraform/terraform" then some (.file 0o755)
  else if path = "/opt/terraform" then some (.dir 0o755)
  else if path = "/opt/terraform/LICENSE" then some (.file 0o644)
  else none

/-- The context built by `init`: `context.WithTimeout` of ten seconds on the
background context, not done when it is created. -/
def versionContext : Context := { deadline := some (10 * Second), err := none }

/-- A child process that exits with status 1, which `Run` reports as an error. -/
def exitsOne (out : String) : RunResult :=
  { stdout := out, stderr := "", processState := some 1,
    err := some (.external "exit status 1"), ctxErr := none }

/-- A child process killed when the deadline of its context passed. -/
def timedOut : RunResult :=
  { stdout := "", stderr := "", processState := some (-1),
    err := some (.external "signal: killed"), ctxErr := some .DeadlineExceeded }

/-! ## Argument validation -/

theorem mapIndex_eq_true_iff (m : List (String × Bool)) (hm : ∀ kv ∈ m, kv.2 = true)
    (key : String) : mapIndex m key = true ↔ key ∈ m.map Prod.fst := by
  induction m with
  | nil => simp [mapIndex]
  | cons kv rest ih =>
    obtain ⟨k, v⟩ := kv
    have hv : v = true := hm (k, v) (List.mem_cons_self _ _)
    have hrest : ∀ kv ∈ rest, kv.2 = true := fun kv h => hm kv (List.mem_cons_of_mem _ h)
    by_cases hk : key = k
    · simp [mapIndex, hk, hv]
    · simp [mapIndex, hk, ih hrest]

theorem isAllowedCommand_iff (cmd : String) :
    isAllowedCommand cmd = true ↔ TrimPrefix cmd "-" ∈ allowListedSubcommands := by
  unfold isAllowedCommand
  rw [mapIndex_eq_true_iff allowedCommands (by decide)]
  have h : allowedCommands.map Prod.fst = allowListedSubcommands := by decide
  rw [h]

theorem dash_append_data (t : String) : ("-" ++ t).data = '-' :: t.data := by
  rw [String.data_append]; rfl

theorem TrimPrefix_dash_append (t : String) : TrimPrefix ("-" ++ t) "-" = t := by
  have hd := dash_append_data t
  have hp : HasPrefix ("-" ++ t) "-" = true := by
    unfold HasPrefix
    rw [hd]
    show List.isPrefixOf ['-'] ('-' :: t.data) = true
    simp [List.isPrefixOf]
  unfold TrimPrefix
  rw [if_pos hp, hd]
  rfl

theorem TrimPrefix_dash_cases (s : String) :
    (s = "-" ++ TrimPrefix s "-" ∧ HasPrefix s "-" = true) ∨
      (TrimPrefix s "-" = s ∧ HasPrefix s "-" = false) := by
  by_cases hp : HasPrefix s "-" = true
  · left
    refine ⟨?_, hp⟩
    have hs : s.data = '-' :: s.data.drop 1 := by
      unfold HasPrefix at hp
      change List.isPrefixOf ['-'] s.data = true at hp
      cases hd : s.data with
      | nil => rw [hd] at hp; simp [List.isPrefixOf] at hp
      | cons c cs =>
        rw [hd] at hp
        simp [List.isPrefixOf] at hp
        simp [← hp]
    apply String.ext
    rw [dash_append_data]
    unfold TrimPrefix
    rw [if_pos hp]
    exact hs
  · right
    have hf : HasPrefix s "-" = false := by simpa using hp
    exact ⟨by simp [TrimPrefix, hf], hf⟩

theorem allowListed_no_dash : ∀ a ∈ allowListedSubcommands, HasPrefix a "-" = false := by
  decide

theorem TrimPrefix_mem_iff (cmd : String) :
    TrimPrefix cmd "-" ∈ allowListedSubcommands ↔
      ∃ a ∈ allowListedSubcommands, cmd = a ∨ cmd = "-" ++ a := by
  constructor
  · intro h
    rcases TrimPrefix_dash_cases cmd with ⟨h1, _⟩ | ⟨h1, _⟩
    · exact ⟨_, h, Or.inr h1⟩
    · exact ⟨_, h, Or.inl h1.symm⟩
  · rintro ⟨a, ha, rfl | rfl⟩
    · have h := allowListed_no_dash _ ha
      have h2 : TrimPrefix cmd "-" = cmd := by simp [TrimPrefix, h]
      rw [h2]; exact ha
    · rw [TrimPrefix_dash_append]; exact ha

/-- C1: `validateCommandArgs` succeeds exactly on the non-empty argument lists
whose first element, with at most one leading "-" removed, is one of the 23
allow-listed sub-commands; the remaining arguments play no part; `[]`,
`["bogus"]` and `["--plan"]` fail while `["plan"]` and `["-plan"]` succeed. -/
theorem validateCommandArgs_ok_iff :
    (∀ args : List String, validateCommandArgs args = none ↔
      ∃ command rest, args = command :: rest ∧
        ∃ a ∈ allowListedSubcommands, command = a ∨ command = "-" ++ a) ∧
    (∀ (command : String) (rest rest2 : List String),
      validateCommandArgs (command :: rest) = validateCommandArgs (command :: rest2)) ∧
    allowListedSubcommands.length = 23 ∧
    validateCommandArgs [] ≠ none ∧ validateCommandArgs ["bogus"] ≠ none ∧
    validateCommandArgs ["--plan"] ≠ none ∧
    validateCommandArgs ["plan"] = none ∧ validateCommandArgs ["-plan"] = none := by
  refine ⟨?_, fun _ _ _ => rfl, by decide, by decide, by decide, by decide, by decide,
    by decide⟩
  intro args
  cases args with
  | nil => simp [validateCommandArgs]
  | cons command rest =>
    have h := (isAllowedCommand_iff command).trans (TrimPrefix_mem_iff command)
    by_cases hc : isAllowedCommand command = true
    · have h2 := h.mp hc
      simp only [validateCommandArgs, hc]
      simpa using h2
    · have h2 : ¬ ∃ a ∈ allowListedSubcommands, command = a ∨ command = "-" ++ a :=
        fun hx => hc (h.mpr hx)
      have hf : isAllowedCommand command = false := by simpa using hc
      simp only [validateCommandArgs, hf]
      simpa using h2

/-! ## Refusals of `ExecuteCommand` -/

/-- C2: called on `p = GetPlatform()`, `ExecuteCommand` refuses with the
debug-server error when the platform is DebugServer, otherwise with the
empty-binary-path error when `binaryPath` is empty, otherwise with the
nil-context error when the context is nil; in each case the `CommandOutput` is
nil and the state of the environment is untouched (nothing is spawned), and the
three errors are pairwise distinct. -/
theorem ExecuteCommand_refusal_precedence (cfg : platformConfig) (w : World) (s : State)
    (ctx : Option Context) (args : List String) :
    GetPlatform (some cfg) = .returned cfg.platform ∧
    (cfg.platform = PlatformDebugServer →
      Platform.ExecuteCommand (some cfg) w s cfg.platform ctx args =
        .returned ((none, some (.errorf "cannot execute platform command against debug server" [])), s)) ∧
    (cfg.platform ≠ PlatformDebugServer → cfg.binaryPath = "" →
      Platform.ExecuteCommand (some cfg) w s cfg.platform ctx args =
        .returned ((none, some (.errorf "binary path is empty" [])), s)) ∧
    (cfg.platform ≠ PlatformDebugServer → cfg.binaryPath ≠ "" → ctx = none →
      Platform.ExecuteCommand (some cfg) w s cfg.platform ctx args =
        .returned ((none, some (.errorf "nil context provided" [])), s)) ∧
    Error.errorf "cannot execute platform command against debug server" [] ≠
      Error.errorf "binary path is empty" [] ∧
    Error.errorf "cannot execute platform command against debug server" [] ≠
      Error.errorf "nil context provided" [] ∧
    Error.errorf "binary path is empty" [] ≠ Error.errorf "nil context provided" [] := by
  refine ⟨rfl, ?_, ?_, ?_, by decide, by decide, by decide⟩
  · intro hp
    simp [Platform.ExecuteCommand, hp]
  · intro hp hb
    simp [Platform.ExecuteCommand, hp, hb]
  · intro hp hb hc
    subst hc
    simp [Platform.ExecuteCommand, hp, hb, executePlatformCommand]

/-- C2 at three concrete configurations, one for each refusal. -/
theorem ExecuteCommand_refusal_precedence_witness :
    Platform.ExecuteCommand (some ⟨PlatformDebugServer, "", ""⟩)
        (simpleWorld "/usr/bin/dlv" (.ok ⟨0o755⟩) (exitsZero "")) ⟨0, []⟩ PlatformDebugServer
        none [] =
      .returned ((none, some (.errorf "cannot execute platform command against debug server" [])),
        ⟨0, []⟩) ∧
    Platform.ExecuteCommand (some ⟨PlatformTerraform, "", ""⟩)
        (simpleWorld "/usr/bin/terraform" (.ok ⟨0o755⟩) (exitsZero "")) ⟨0, []⟩
        PlatformTerraform none ["plan"] =
      .returned ((none, some (.errorf "binary path is empty" [])), ⟨0, []⟩) ∧
    Platform.ExecuteCommand (some ⟨PlatformTerraform, "/usr/bin/terraform", ""⟩)
        (simpleWorld "/usr/bin/terraform" (.ok ⟨0o755⟩) (exitsZero "")) ⟨0, []⟩
        PlatformTerraform none ["plan"] =
      .returned ((none, some (.errorf "nil context provided" [])), ⟨0, []⟩) :=
  ⟨(ExecuteCommand_refusal_precedence ⟨PlatformDebugServer, "", ""⟩
      (simpleWorld "/usr/bin/dlv" (.ok ⟨0o755⟩) (exitsZero "")) ⟨0, []⟩ none []).2.1 rfl,
   (ExecuteCommand_refusal_precedence ⟨PlatformTerraform, "", ""⟩
      (simpleWorld "/usr/bin/terraform" (.ok ⟨0o755⟩) (exitsZero "")) ⟨0, []⟩ none
      ["plan"]).2.2.1 (by decide) rfl,
   (ExecuteCommand_refusal_precedence ⟨PlatformTerraform, "/usr/bin/terraform", ""⟩
      (simpleWorld "/usr/bin/terraform" (.ok ⟨0o755⟩) (exitsZero "")) ⟨0, []⟩ none
      ["plan"]).2.2.2.1 (by decide) (by decide) rfl⟩

/-- C3, as stated, fails: with the cached platform DebugServer and the debugger
binary recorded in `binaryPath`, `ExecuteCommand` on the receiver
`PlatformTerraform` returns no error and hands the debugger binary to the
system. -/
theorem ExecuteCommand_cached_debug_server_spawns :
    GetPlatform (some ⟨PlatformDebugServer, "/usr/local/bin/dlv", ""⟩) =
      .returned PlatformDebugServer ∧
    Platform.ExecuteCommand (some ⟨PlatformDebugServer, "/usr/local/bin/dlv", ""⟩)
        (simpleWorld "/usr/local/bin/dlv" (.ok ⟨0o755⟩) (exitsZero "Delve Debugger"))
        ⟨0, []⟩ PlatformTerraform (some liveContext) ["version"] =
      .returned ((some ⟨"Delve Debugger", "", 0⟩, none),
        ⟨2, [("/usr/local/bin/dlv", ["/usr/local/bin/dlv", "version"])]⟩) := by
  decide

/-- C3, amended: when the cached platform is DebugServer, `ExecuteCommand` on
the value returned by `GetPlatform()` returns the debug-server error and leaves
the environment untouched; so does a call on the receiver
`PlatformDebugServer` in every config state, a nil config included; and the
cached platform is not read by a call on any receiver. -/
theorem ExecuteCommand_debug_server_receiver :
    (∀ (cfg : platformConfig) (w : World) (s : State) (ctx : Option Context)
        (args : List String), cfg.platform = PlatformDebugServer →
      ∃ p, GetPlatform (some cfg) = .returned p ∧
        Platform.ExecuteCommand (some cfg) w s p ctx args =
          .returned ((none, some (.errorf "cannot execute platform command against debug server" [])), s)) ∧
    (∀ (single : Option platformConfig) (w : World) (s : State) (ctx : Option Context)
        (args : List String),
      Platform.ExecuteCommand single w s PlatformDebugServer ctx args =
        .returned ((none, some (.errorf "cannot execute platform command against debug server" [])), s)) ∧
    (∀ (cfg : platformConfig) (cached : Platform) (w : World) (s : State) (p : Platform)
        (ctx : Option Context) (args : List String),
      Platform.ExecuteCommand (some { cfg with platform := cached }) w s p ctx args =
        Platform.ExecuteCommand (some cfg) w s p ctx args) := by
  refine ⟨?_, ?_, ?_⟩
  · intro cfg w s ctx args hp
    exact ⟨cfg.platform, rfl, by simp [Platform.ExecuteCommand, hp]⟩
  · intro single w s ctx args
    simp [Platform.ExecuteCommand]
  · intro cfg cached w s p ctx args
    rfl

/-- C3, amended, at a config whose cached platform is DebugServer. -/
theorem ExecuteCommand_debug_server_receiver_witness :
    ∃ p, GetPlatform (some ⟨PlatformDebugServer, "/usr/local/bin/dlv", ""⟩) = .returned p ∧
      Platform.ExecuteCommand (some ⟨PlatformDebugServer, "/usr/local/bin/dlv", ""⟩)
          (simpleWorld "/usr/local/bin/dlv" (.ok ⟨0o755⟩) (exitsZero "Delve Debugger"))
          ⟨0, []⟩ p (some liveContext) ["version"] =
        .returned ((none, some (.errorf "cannot execute platform command against debug server" [])),
          ⟨0, []⟩) :=
  ExecuteCommand_debug_server_receiver.1 ⟨PlatformDebugServer, "/usr/local/bin/dlv", ""⟩
    (simpleWorld "/usr/local/bin/dlv" (.ok ⟨0o755⟩) (exitsZero "Delve Debugger")) ⟨0, []⟩
    (some liveContext) ["version"] rfl

/-- C4, as stated, fails: with the platform Unknown, a recorded binary that
verifies and an allow-listed first argument, `ExecuteCommand` on
`GetPlatform()` returns no error and spawns the binary. -/
theorem ExecuteCommand_unknown_spawns :
    GetPlatform (some ⟨PlatformUnknown, "/usr/bin/terraform", ""⟩) =
      .returned PlatformUnknown ∧
    Platform.ExecuteCommand (some ⟨PlatformUnknown, "/usr/bin/terraform", ""⟩)
        (simpleWorld "/usr/bin/terraform" (.ok ⟨0o755⟩) (exitsZero "No changes."))
        ⟨0, []⟩ PlatformUnknown (some liveContext) ["plan"] =
      .returned ((some ⟨"No changes.", "", 0⟩, none),
        ⟨2, [("/usr/bin/terraform", ["/usr/bin/terraform", "plan"])]⟩) := by
  decide

/-- What `executePlatformCommand` leaves in the list of start requests. -/
theorem executePlatformCommand_spawned (w : World) (s : State) (ctx : Option Context)
    (binaryPath : String) (args : List String) :
    (executePlatformCommand w s ctx binaryPath args).2.spawned =
      if (∃ c, ctx = some c ∧ c.err = none) ∧ validateCommandArgs args = none ∧
          (verifyBinary w s binaryPath).1 = none ∧ w.commandErr binaryPath = none
      then s.spawned ++ [(binaryPath, binaryPath :: args)] else s.spawned := by
  cases ctx with
  | none => simp [executePlatformCommand]
  | some c =>
    cases hv : validateCommandArgs args with
    | some e => simp [executePlatformCommand, hv]
    | none =>
      cases hb : verifyStat (w.stat s.clock binaryPath) with
      | some e => simp [executePlatformCommand, hv, verifyBinary, hb]
      | none =>
        cases hl : w.commandErr binaryPath with
        | some e2 =>
          by_cases hd : c.err = some Error.DeadlineExceeded <;>
            simp [executePlatformCommand, hv, verifyBinary, hb, cmdRun, hl, hd]
        | none =>
          cases hc : c.err with
          | some e =>
            by_cases hd : e = Error.DeadlineExceeded <;>
              simp [executePlatformCommand, hv, verifyBinary, hb, cmdRun, hc, hl, hd]
          | none =>
            simp only [executePlatformCommand, hv, verifyBinary, hb, cmdRun, hc, hl]
            split <;> [split; skip] <;> simp [hc]

/-- A command that carries an error from its construction makes
`executePlatformCommand` return an error. -/
theorem executePlatformCommand_error_of_commandErr (w : World) (s : State)
    (ctx : Option Context) (binaryPath : String) (args : List String)
    (hl : w.commandErr binaryPath ≠ none) :
    (executePlatformCommand w s ctx binaryPath args).1.2 ≠ none := by
  cases ctx with
  | none => simp [executePlatformCommand]
  | some c =>
    cases hv : validateCommandArgs args with
    | some e => simp [executePlatformCommand, hv]
    | none =>
      cases hb : verifyStat (w.stat s.clock binaryPath) with
      | some e => simp [executePlatformCommand, hv, verifyBinary, hb]
      | none =>
        cases he : w.commandErr binaryPath with
        | none => exact absurd he hl
        | some e =>
          by_cases hd : c.err = some Error.DeadlineExceeded <;>
            simp [executePlatformCommand, hv, verifyBinary, hb, cmdRun, he, hd]

/-- The guards of `executePlatformCommand`: a nil context, arguments that fail
validation or a binary that fails verification give a nil output and an error. -/
theorem executePlatformCommand_guard (w : World) (s : State) (ctx : Option Context)
    (binaryPath : String) (args : List String)
    (h : ctx = none ∨ validateCommandArgs args ≠ none ∨
      (verifyBinary w s binaryPath).1 ≠ none) :
    (executePlatformCommand w s ctx binaryPath args).1.1 = none ∧
      (executePlatformCommand w s ctx binaryPath args).1.2 ≠ none := by
  cases ctx with
  | none => simp [executePlatformCommand]
  | some c =>
    cases hv : validateCommandArgs args with
    | some e => simp [executePlatformCommand, hv]
    | none =>
      cases hb : verifyStat (w.stat s.clock binaryPath) with
      | some e => simp [executePlatformCommand, hv, verifyBinary, hb]
      | none => simp [hv, verifyBinary, hb] at h

/-- A context that is already done makes `executePlatformCommand` return an
error without handing anything to the system. -/
theorem executePlatformCommand_error_of_done (w : World) (s : State) (c : Context)
    (binaryPath : String) (args : List String) (hc : c.err ≠ none) :
    (executePlatformCommand w s (some c) binaryPath args).1.2 ≠ none := by
  cases hv : validateCommandArgs args with
  | some e => simp [executePlatformCommand, hv]
  | none =>
    cases hb : verifyStat (w.stat s.clock binaryPath) with
    | some e => simp [executePlatformCommand, hv, verifyBinary, hb]
    | none =>
      cases he : c.err with
      | none => exact absurd he hc
      | some e =>
        cases hl : w.commandErr binaryPath <;>
          by_cases hd : e = Error.DeadlineExceeded <;>
          simp [executePlatformCommand, hv, verifyBinary, hb, cmdRun, he, hl, hd]

/-- C4, amended: for the platform Unknown `Validate` returns an error, and
`ExecuteCommand` behaves as it does on a Terraform or OpenTofu config with the
same `binaryPath`: it returns an error without any start request when
`binaryPath` is empty, the context is nil or already done, the arguments fail
validation, the binary fails verification or the command carries an error from
its construction; when none of these holds it makes one request to the system
to start the recorded binary with the given arguments. -/
theorem ExecuteCommand_unknown_guards (cfg : platformConfig) (w : World) (s : State)
    (ctx : Option Context) (args : List String) (hp : cfg.platform = PlatformUnknown) :
    Platform.Validate (some cfg) cfg.platform ≠ none ∧
    Platform.ExecuteCommand (some cfg) w s cfg.platform ctx args =
      Platform.ExecuteCommand (some { cfg with platform := PlatformTerraform }) w s
        PlatformTerraform ctx args ∧
    Platform.ExecuteCommand (some cfg) w s cfg.platform ctx args =
      Platform.ExecuteCommand (some { cfg with platform := PlatformOpenTofu }) w s
        PlatformOpenTofu ctx args ∧
    ∃ out err st,
      Platform.ExecuteCommand (some cfg) w s cfg.platform ctx args = .returned ((out, err), st) ∧
      ((cfg.binaryPath = "" ∨ ctx = none ∨ validateCommandArgs args ≠ none ∨
          (verifyBinary w s cfg.binaryPath).1 ≠ none) →
        out = none ∧ err ≠ none ∧ st.spawned = s.spawned) ∧
      ((∃ c, ctx = some c ∧ c.err ≠ none) → err ≠ none ∧ st.spawned = s.spawned) ∧
      (w.commandErr cfg.binaryPath ≠ none → err ≠ none ∧ st.spawned = s.spawned) ∧
      (cfg.binaryPath ≠ "" → (∃ c, ctx = some c ∧ c.err = none) →
        validateCommandArgs args = none → (verifyBinary w s cfg.binaryPath).1 = none →
        w.commandErr cfg.binaryPath = none →
        st.spawned = s.spawned ++ [(cfg.binaryPath, cfg.binaryPath :: args)]) := by
  have hnd : cfg.platform ≠ PlatformDebugServer := by rw [hp]; decide
  have ht : PlatformTerraform ≠ PlatformDebugServer := by decide
  have ho : PlatformOpenTofu ≠ PlatformDebugServer := by decide
  refine ⟨by rw [hp]; simp [Platform.Validate, IsValidPlatform, PlatformUnknown,
    PlatformTerraform, PlatformOpenTofu, PlatformDebugServer], ?_, ?_, ?_⟩
  · simp [Platform.ExecuteCommand, hnd, ht]
  · simp [Platform.ExecuteCommand, hnd, ho]
  by_cases hb : cfg.binaryPath = ""
  · refine ⟨none, some (.errorf "binary path is empty" []), s, ?_, ?_, ?_, ?_, ?_⟩
    · simp [Platform.ExecuteCommand, hnd, hb]
    · intro _; simp
    · intro _; simp
    · intro _; simp
    · intro h; exact absurd hb h
  · have hs := executePlatformCommand_spawned w s ctx cfg.binaryPath args
    refine ⟨(executePlatformCommand w s ctx cfg.binaryPath args).1.1,
      (executePlatformCommand w s ctx cfg.binaryPath args).1.2,
      (executePlatformCommand w s ctx cfg.binaryPath args).2, ?_, ?_, ?_, ?_, ?_⟩
    · simp [Platform.ExecuteCommand, hnd, hb]
    · intro h
      have hg : ctx = none ∨ validateCommandArgs args ≠ none ∨
          (verifyBinary w s cfg.binaryPath).1 ≠ none := by
        rcases h with h | h | h | h
        · exact absurd h hb
        · exact Or.inl h
        · exact Or.inr (Or.inl h)
        · exact Or.inr (Or.inr h)
      have h1 := executePlatformCommand_guard w s ctx cfg.binaryPath args hg
      refine ⟨h1.1, h1.2, ?_⟩
      rw [hs, if_neg]
      rintro ⟨⟨c, h2, _⟩, h3, h4, _⟩
      rcases hg with hg | hg | hg
      · rw [hg] at h2; cases h2
      · exact hg h3
      · exact hg h4
    · rintro ⟨c, rfl, hc⟩
      refine ⟨executePlatformCommand_error_of_done w s c cfg.binaryPath args hc, ?_⟩
      rw [hs, if_neg]
      rintro ⟨⟨c2, h2, h3⟩, _⟩
      cases h2
      exact hc h3
    · intro hl
      refine ⟨executePlatformCommand_error_of_commandErr w s ctx cfg.binaryPath args hl, ?_⟩
      rw [hs, if_neg]
      rintro ⟨_, _, _, h5⟩
      exact hl h5
    · intro _ h1 h2 h3 h4
      rw [hs, if_pos ⟨h1, h2, h3, h4⟩]

/-- C4, amended, at a config with the platform Unknown and a binary that
verifies: one start request is made. -/
theorem ExecuteCommand_unknown_guards_witness :
    Platform.Validate (some ⟨PlatformUnknown, "/usr/bin/terraform", ""⟩) PlatformUnknown ≠ none ∧
    ∃ out err st,
      Platform.ExecuteCommand (some ⟨PlatformUnknown, "/usr/bin/terraform", ""⟩)
          (simpleWorld "/usr/bin/terraform" (.ok ⟨0o755⟩) (exitsZero "No changes."))
          ⟨0, []⟩ PlatformUnknown (some liveContext) ["plan"] = .returned ((out, err), st) ∧
      st.spawned = [("/usr/bin/terraform", ["/usr/bin/terraform", "plan"])] := by
  obtain ⟨hv, _, _, out, err, st, h1, _, _, _, h4⟩ :=
    ExecuteCommand_unknown_guards ⟨PlatformUnknown, "/usr/bin/terraform", ""⟩
      (simpleWorld "/usr/bin/terraform" (.ok ⟨0o755⟩) (exitsZero "No changes."))
      ⟨0, []⟩ (some liveContext) ["plan"] rfl
  exact ⟨hv, out, err, st, h1,
    h4 (by decide) ⟨liveContext, rfl, rfl⟩ (by decide) (by decide) (by decide)⟩

/-! ## `Validate` -/

/-- C5, as stated, fails: Unknown is one of the four variants, the config is
initialized with a non-empty `binaryPath`, and `Validate` returns an error. -/
theorem Validate_unknown_fails :
    PlatformUnknown ∈
      [PlatformUnknown, PlatformTerraform, PlatformOpenTofu, PlatformDebugServer] ∧
    Platform.Validate (some ⟨PlatformUnknown, "/usr/bin/terraform", ""⟩) PlatformUnknown ≠
      none := by
  decide

/-- C5, amended: `Validate` returns an error exactly when the receiver is not
one of Terraform, OpenTofu and DebugServer, or the config is nil, or
`binaryPath` is empty; so Unknown and every integer outside 1..3 fail, and each
of the three other variants validates when the config is initialized with a
non-empty `binaryPath`. -/
theorem Validate_error_iff :
    (∀ (single : Option platformConfig) (p : Platform),
      Platform.Validate single p ≠ none ↔
        (p ≠ PlatformTerraform ∧ p ≠ PlatformOpenTofu ∧ p ≠ PlatformDebugServer) ∨
          single = none ∨ ∃ cfg, single = some cfg ∧ cfg.binaryPath = "") ∧
    (∀ (single : Option platformConfig) (n : Int), n < 1 ∨ 3 < n →
      Platform.Validate single ⟨n⟩ ≠ none) ∧
    (∀ (cfg : platformConfig) (p : Platform), cfg.binaryPath ≠ "" →
      p ∈ [PlatformTerraform, PlatformOpenTofu, PlatformDebugServer] →
      Platform.Validate (some cfg) p = none) := by
  have key : ∀ (single : Option platformConfig) (p : Platform),
      Platform.Validate single p ≠ none ↔
        (p ≠ PlatformTerraform ∧ p ≠ PlatformOpenTofu ∧ p ≠ PlatformDebugServer) ∨
          single = none ∨ ∃ cfg, single = some cfg ∧ cfg.binaryPath = "" := by
    intro single p
    by_cases hv : p = PlatformTerraform ∨ p = PlatformOpenTofu ∨ p = PlatformDebugServer
    · have hn : ¬ (p ≠ PlatformTerraform ∧ p ≠ PlatformOpenTofu ∧ p ≠ PlatformDebugServer) := by
        rintro ⟨h1, h2, h3⟩
        rcases hv with h | h | h
        · exact h1 h
        · exact h2 h
        · exact h3 h
      cases single with
      | none => simp [Platform.Validate, IsValidPlatform, hv]
      | some cfg =>
        by_cases hb : cfg.binaryPath = "" <;>
          simp [Platform.Validate, IsValidPlatform, hv, hn, hb]
    · have hn : p ≠ PlatformTerraform ∧ p ≠ PlatformOpenTofu ∧ p ≠ PlatformDebugServer := by
        refine ⟨fun h => hv (Or.inl h), fun h => hv (Or.inr (Or.inl h)),
          fun h => hv (Or.inr (Or.inr h))⟩
      simp [Platform.Validate, IsValidPlatform, hv, hn]
  refine ⟨key, ?_, ?_⟩
  · intro single n hn
    rw [key]
    left
    simp only [PlatformTerraform, PlatformOpenTofu, PlatformDebugServer, ne_eq,
      Platform.mk.injEq]
    omega
  · intro cfg p hb hp
    have h := (key (some cfg) p).not
    simp only [ne_eq, not_not] at h
    rw [h]
    simp only [List.mem_cons, List.mem_singleton, List.not_mem_nil, or_false] at hp
    rintro (⟨h1, h2, h3⟩ | h | ⟨c, hc, hc2⟩)
    · rcases hp with hp | hp | hp
      · exact h1 hp
      · exact h2 hp
      · exact h3 hp
    · cases h
    · cases hc
      exact hb hc2

/-- C5, amended, at the out-of-range value 7 and at Terraform with a resolved
binary. -/
theorem Validate_error_iff_witness :
    Platform.Validate (some ⟨⟨7⟩, "/usr/bin/terraform", ""⟩) ⟨7⟩ ≠ none ∧
    Platform.Validate (some ⟨PlatformTerraform, "/usr/bin/terraform", ""⟩) PlatformTerraform =
      none :=
  ⟨Validate_error_iff.2.1 (some ⟨⟨7⟩, "/usr/bin/terraform", ""⟩) 7 (Or.inr (by decide)),
   Validate_error_iff.2.2 ⟨PlatformTerraform, "/usr/bin/terraform", ""⟩ PlatformTerraform
     (by decide) (by decide)⟩

/-! ## Binary verification -/

theorem perm_exec_eq_zero_iff (m : FileMode) :
    FileMode.Perm m &&& 0o111 = 0 ↔
      m.testBit 0 = false ∧ m.testBit 3 = false ∧ m.testBit 6 = false := by
  have h1 : FileMode.Perm m &&& 0o111 = m &&& 0o111 := by
    unfold FileMode.Perm ModePerm
    rw [Nat.land_assoc]
    rfl
  rw [h1]
  constructor
  · intro h
    have hb : ∀ i, (m &&& 0o111).testBit i = false := by
      intro i; rw [h]; exact Nat.zero_testBit i
    have h0 := hb 0
    have h3 := hb 3
    have h6 := hb 6
    rw [Nat.testBit_land] at h0 h3 h6
    have e0 : Nat.testBit 0o111 0 = true := by decide
    have e3 : Nat.testBit 0o111 3 = true := by decide
    have e6 : Nat.testBit 0o111 6 = true := by decide
    rw [e0, Bool.and_true] at h0
    rw [e3, Bool.and_true] at h3
    rw [e6, Bool.and_true] at h6
    exact ⟨h0, h3, h6⟩
  · rintro ⟨h0, h3, h6⟩
    apply Nat.eq_of_testBit_eq
    intro i
    rw [Nat.testBit_land, Nat.zero_testBit]
    by_cases hi : i < 7
    · interval_cases i
      · rw [h0]; rfl
      · have : Nat.testBit 0o111 1 = false := by decide
        simp [this]
      · have : Nat.testBit 0o111 2 = false := by decide
        simp [this]
      · rw [h3]; rfl
      · have : Nat.testBit 0o111 4 = false := by decide
        simp [this]
      · have : Nat.testBit 0o111 5 = false := by decide
        simp [this]
      · rw [h6]; rfl
    · have hlt : (0o111 : Nat) < 2 ^ i :=
        lt_of_lt_of_le (by norm_num : (0o111 : Nat) < 2 ^ 7)
          (Nat.pow_le_pow_right (by norm_num) (by omega))
      rw [Nat.testBit_lt_two_pow hlt]
      simp

theorem directory_not_regular (m : FileMode) (h : m.testBit 31 = true) :
    FileMode.IsRegular m = false := by
  unfold FileMode.IsRegular
  rw [beq_eq_false_iff_ne]
  intro h0
  have hb : (m &&& ModeType).testBit 31 = false := by rw [h0]; exact Nat.zero_testBit 31
  rw [Nat.testBit_land, h] at hb
  have e : Nat.testBit ModeType 31 = true := by decide
  rw [e] at hb
  cases hb

theorem verifyStat_ok (info : FileInfo) :
    verifyStat (.ok info) =
      if info.mode.IsRegular = false then some (.errorf "binary path is not a regular file" [])
      else if info.mode.Perm &&& 0o111 = 0 then some (.errorf "binary is not executable" [])
      else none := by
  cases hr : info.mode.IsRegular <;> by_cases hz : info.mode.Perm &&& 0o111 = 0 <;>
    simp [verifyStat, hr, hz]

theorem verifyStat_eq_none_iff (r : Except Error FileInfo) :
    verifyStat r = none ↔
      ∃ info, r = .ok info ∧ info.mode.IsRegular = true ∧
        (info.mode.testBit 0 = true ∨ info.mode.testBit 3 = true ∨
          info.mode.testBit 6 = true) := by
  cases r with
  | error err =>
    constructor
    · intro h; cases h
    · rintro ⟨info, h, _⟩; cases h
  | ok info =>
    have hx := perm_exec_eq_zero_iff info.mode
    rw [verifyStat_ok]
    constructor
    · intro h
      by_cases hr : info.mode.IsRegular = false
      · rw [if_pos hr] at h; cases h
      · rw [if_neg hr] at h
        by_cases hz : info.mode.Perm &&& 0o111 = 0
        · rw [if_pos hz] at h; cases h
        · refine ⟨info, rfl, by simpa using hr, ?_⟩
          by_contra hc
          apply hz
          apply hx.mpr
          simp only [not_or, Bool.not_eq_true] at hc
          exact hc
    · rintro ⟨info2, hi, hr, hb⟩
      cases hi
      have hr2 : ¬ info.mode.IsRegular = false := by rw [hr]; decide
      have hz : ¬ info.mode.Perm &&& 0o111 = 0 := by
        intro hz
        obtain ⟨h0, h3, h6⟩ := hx.mp hz
        rcases hb with hb | hb | hb
        · rw [h0] at hb; cases hb
        · rw [h3] at hb; cases hb
        · rw [h6] at hb; cases hb
      rw [if_neg hr2, if_neg hz]

/-- C6: the result of `verifyBinary` is determined by the result of `os.Stat`
for the path, through three checks in order: a stat error gives "failed to stat
binary" wrapping that error; an entry that is not a regular file (a directory,
whatever its permission bits) gives "binary path is not a regular file"; a
regular file whose permission bits and 0111 give 0, that is with none of the
three execute bits set, gives "binary is not executable"; the result is nil
exactly when stat succeeds, the entry is regular and one of the owner, group
and other execute bits is set.  The three errors are distinct. -/
theorem verifyBinary_checks :
    (∀ (w w2 : World) (s s2 : State) (path path2 : String),
      w.stat s.clock path = w2.stat s2.clock path2 →
      (verifyBinary w s path).1 = (verifyBinary w2 s2 path2).1) ∧
    (∀ (w : World) (s : State) (path : String) (err : Error),
      w.stat s.clock path = .error err →
      (verifyBinary w s path).1 = some (.wrapf "failed to stat binary: %w" err)) ∧
    (∀ (w : World) (s : State) (path : String) (info : FileInfo),
      w.stat s.clock path = .ok info → info.mode.IsRegular = false →
      (verifyBinary w s path).1 = some (.errorf "binary path is not a regular file" [])) ∧
    (∀ (w : World) (s : State) (path : String) (info : FileInfo),
      w.stat s.clock path = .ok info → info.mode.testBit 31 = true →
      (verifyBinary w s path).1 = some (.errorf "binary path is not a regular file" [])) ∧
    (∀ (w : World) (s : State) (path : String) (info : FileInfo),
      w.stat s.clock path = .ok info → info.mode.IsRegular = true →
      info.mode.Perm &&& 0o111 = 0 →
      (verifyBinary w s path).1 = some (.errorf "binary is not executable" [])) ∧
    (∀ m : FileMode, FileMode.Perm m &&& 0o111 = 0 ↔
      m.testBit 0 = false ∧ m.testBit 3 = false ∧ m.testBit 6 = false) ∧
    (∀ (w : World) (s : State) (path : String),
      (verifyBinary w s path).1 = none ↔
        ∃ info, w.stat s.clock path = .ok info ∧ info.mode.IsRegular = true ∧
          (info.mode.testBit 0 = true ∨ info.mode.testBit 3 = true ∨
            info.mode.testBit 6 = true)) ∧
    (∀ err : Error, Error.wrapf "failed to stat binary: %w" err ≠
        Error.errorf "binary path is not a regular file" [] ∧
      Error.wrapf "failed to stat binary: %w" err ≠ Error.errorf "binary is not executable" []) ∧
    Error.errorf "binary path is not a regular file" [] ≠
      Error.errorf "binary is not executable" [] := by
  refine ⟨?_, ?_, ?_, ?_, ?_, perm_exec_eq_zero_iff, ?_, ?_, by decide⟩
  · intro w w2 s s2 path path2 h
    simp [verifyBinary, h]
  · intro w s path err h
    simp [verifyBinary, h, verifyStat]
  · intro w s path info h hr
    simp [verifyBinary, h, verifyStat, hr]
  · intro w s path info h hd
    simp [verifyBinary, h, verifyStat, directory_not_regular _ hd]
  · intro w s path info h hr hz
    simp [verifyBinary, h, verifyStat, hr, hz]
  · intro w s path
    exact verifyStat_eq_none_iff _
  · intro err
    exact ⟨by simp, by simp⟩

/-- C6 on a directory without execute bits, and on a path that cannot be
examined. -/
theorem verifyBinary_checks_witness :
    (verifyBinary (simpleWorld "/opt" (.ok ⟨ModeDir ||| 0o644⟩) (exitsZero "")) ⟨0, []⟩ "/opt").1 =
      some (.errorf "binary path is not a regular file" []) ∧
    (verifyBinary (simpleWorld "/x" (.error (.external "no such file or directory"))
        (exitsZero "")) ⟨0, []⟩ "/x").1 =
      some (.wrapf "failed to stat binary: %w" (.external "no such file or directory")) :=
  ⟨verifyBinary_checks.2.2.2.1 (simpleWorld "/opt" (.ok ⟨ModeDir ||| 0o644⟩) (exitsZero ""))
      ⟨0, []⟩ "/opt" ⟨ModeDir ||| 0o644⟩ rfl (by decide),
   verifyBinary_checks.2.1 (simpleWorld "/x" (.error (.external "no such file or directory"))
      (exitsZero "")) ⟨0, []⟩ "/x" (.external "no such file or directory") rfl⟩

/-- C7 fails on the code: `os.Stat` follows symbolic links, so for a path that
is a symbolic link (as `os.Lstat` shows) to a regular executable file
`verifyBinary` returns nil, like for the executable itself; the nonexistent
path, the directory and the regular file without execute bits are rejected. -/
theorem verifyBinary_accepts_symlink :
    osLstat linkFS "/usr/local/bin/terraform" = .ok ⟨ModeSymlink ||| ModePerm⟩ ∧
    FileMode.IsRegular (ModeSymlink ||| ModePerm) = false ∧
    (verifyBinary (fsWorld linkFS) ⟨0, []⟩ "/usr/local/bin/terraform").1 = none ∧
    (verifyBinary (fsWorld linkFS) ⟨0, []⟩ "/opt/terraform/terraform").1 = none ∧
    (verifyBinary (fsWorld linkFS) ⟨0, []⟩ "/opt/terraform/missing").1 =
      some (.wrapf "failed to stat binary: %w" (.external "no such file or directory")) ∧
    (verifyBinary (fsWorld linkFS) ⟨0, []⟩ "/opt/terraform").1 =
      some (.errorf "binary path is not a regular file" []) ∧
    (verifyBinary (fsWorld linkFS) ⟨0, []⟩ "/opt/terraform/LICENSE").1 =
      some (.errorf "binary is not executable" []) := by
  decide

/-! ## The command executor -/

/-- An execution that reports no error has an output. -/
theorem executePlatformCommand_some_of_no_error (w : World) (s : State)
    (ctx : Option Context) (binaryPath : String) (args : List String)
    (h : (executePlatformCommand w s ctx binaryPath args).1.2 = none) :
    ∃ o, (executePlatformCommand w s ctx binaryPath args).1.1 = some o := by
  cases ctx with
  | none => simp [executePlatformCommand] at h
  | some c =>
    cases hv : validateCommandArgs args with
    | some e => simp [executePlatformCommand, hv] at h
    | none =>
      cases hb : verifyStat (w.stat s.clock binaryPath) with
      | some e => simp [executePlatformCommand, hv, verifyBinary, hb] at h
      | none =>
        simp only [executePlatformCommand, hv, verifyBinary, hb]
        split <;> [split; skip] <;> simp

/-- C9: when the context is non-nil, the arguments pass validation and the
binary passes verification, `executePlatformCommand` returns a non-nil
`CommandOutput` holding the two captured streams, with the exit code of the
process state when there is one and -1 when there is none; the returned error
is nil exactly when the run reported none, and a run error comes back with the
output: as itself, or as `DeadlineExceeded` when that is what the context
reports.  When a guard fails the output is nil and an error is returned. -/
theorem executePlatformCommand_output (w : World) (s : State) (ctx : Option Context)
    (binaryPath : String) (args : List String) :
    (∀ c, ctx = some c → validateCommandArgs args = none →
      (verifyBinary w s binaryPath).1 = none →
      ∃ r st out err,
        cmdRun w (verifyBinary w s binaryPath).2 c binaryPath (binaryPath :: args) = (r, st) ∧
        executePlatformCommand w s ctx binaryPath args = ((some out, err), st) ∧
        out.Stdout = r.stdout ∧ out.Stderr = r.stderr ∧
        (∀ code, r.processState = some code → out.ExitCode = code) ∧
        (r.processState = none → out.ExitCode = -1) ∧
        (err = none ↔ r.err = none) ∧
        (∀ e, r.err = some e →
          err = some e ∨ (r.ctxErr = some .DeadlineExceeded ∧ err = some .DeadlineExceeded))) ∧
    (ctx = none ∨ validateCommandArgs args ≠ none ∨ (verifyBinary w s binaryPath).1 ≠ none →
      (executePlatformCommand w s ctx binaryPath args).1.1 = none ∧
        (executePlatformCommand w s ctx binaryPath args).1.2 ≠ none) := by
  refine ⟨?_, executePlatformCommand_guard w s ctx binaryPath args⟩
  intro c hc hv hb
  subst hc
  simp only [verifyBinary] at hb
  rcases hrun : cmdRun w { s with clock := s.clock + 1 } c binaryPath (binaryPath :: args)
    with ⟨r, st⟩
  simp only [verifyBinary, hrun]
  have hcode : ∀ code, r.processState = some code →
      (match r.processState with
        | some code => code
        | none => (-1 : Int)) = code := by
    intro code h; rw [h]
  have hnone : r.processState = none →
      (match r.processState with
        | some code => code
        | none => (-1 : Int)) = -1 := by
    intro h; rw [h]
  cases he : r.err with
  | none =>
    refine ⟨r, st, ⟨r.stdout, r.stderr, match r.processState with
      | some code => code
      | none => -1⟩, none, rfl, ?_, rfl, rfl, hcode, hnone, by simp [he], by simp [he]⟩
    simp [executePlatformCommand, hv, verifyBinary, hb, hrun, he]
  | some e =>
    by_cases hd : r.ctxErr = some Error.DeadlineExceeded
    · refine ⟨r, st, ⟨r.stdout, r.stderr, match r.processState with
        | some code => code
        | none => -1⟩, some .DeadlineExceeded, rfl, ?_, rfl, rfl, hcode, hnone, by simp [he], ?_⟩
      · simp [executePlatformCommand, hv, verifyBinary, hb, hrun, he, hd]
      · intro e2 _; exact Or.inr ⟨hd, rfl⟩
    · refine ⟨r, st, ⟨r.stdout, r.stderr, match r.processState with
        | some code => code
        | none => -1⟩, some e, rfl, ?_, rfl, rfl, hcode, hnone, by simp [he], ?_⟩
      · simp [executePlatformCommand, hv, verifyBinary, hb, hrun, he, hd]
      · intro e2 h2; rw [he] at h2; cases h2; exact Or.inl rfl

/-- C9 on a run that exits with status 1: output and error are both returned. -/
theorem executePlatformCommand_output_witness :
    ∃ r st out err,
      cmdRun (simpleWorld "/usr/bin/terraform" (.ok ⟨0o755⟩) (exitsOne "Error: no config"))
          ⟨1, []⟩ liveContext "/usr/bin/terraform" ["/usr/bin/terraform", "plan"] = (r, st) ∧
      executePlatformCommand
          (simpleWorld "/usr/bin/terraform" (.ok ⟨0o755⟩) (exitsOne "Error: no config"))
          ⟨0, []⟩ (some liveContext) "/usr/bin/terraform" ["plan"] = ((some out, err), st) ∧
      out.Stdout = r.stdout ∧ out.Stderr = r.stderr ∧
      (∀ code, r.processState = some code → out.ExitCode = code) ∧
      (r.processState = none → out.ExitCode = -1) ∧
      (err = none ↔ r.err = none) ∧
      (∀ e, r.err = some e →
        err = some e ∨ (r.ctxErr = some .DeadlineExceeded ∧ err = some .DeadlineExceeded)) :=
  (executePlatformCommand_output
    (simpleWorld "/usr/bin/terraform" (.ok ⟨0o755⟩) (exitsOne "Error: no config"))
    ⟨0, []⟩ (some liveContext) "/usr/bin/terraform" ["plan"]).1 liveContext rfl
    (by decide) (by decide)

/-- C10, as stated, fails: under a context that is already cancelled the error
returned is `context.Canceled`, not `DeadlineExceeded`. -/
theorem executePlatformCommand_cancelled_not_deadline :
    validateCommandArgs ["version"] = none ∧
    (verifyBinary (simpleWorld "/usr/bin/terraform" (.ok ⟨0o755⟩) (exitsZero "Terraform v1.5.0"))
      ⟨0, []⟩ "/usr/bin/terraform").1 = none ∧
    executePlatformCommand
        (simpleWorld "/usr/bin/terraform" (.ok ⟨0o755⟩) (exitsZero "Terraform v1.5.0"))
        ⟨0, []⟩ (some ⟨none, some .Canceled⟩) "/usr/bin/terraform" ["version"] =
      ((some ⟨"", "", -1⟩, some .Canceled), ⟨1, []⟩) ∧
    Error.Canceled ≠ Error.DeadlineExceeded := by
  decide

/-- C10, amended: with allow-listed arguments and a verified binary, under a
context that is already expired `executePlatformCommand` returns a non-nil
`CommandOutput` with the sentinel exit code -1 together with
`DeadlineExceeded`; under a context that is already cancelled it returns the
same output together with the error of the run (`Canceled`, or the error
recorded when the command was built), and nothing is spawned in either case. -/
theorem executePlatformCommand_done_context (w : World) (s : State) (c : Context)
    (binaryPath : String) (args : List String)
    (hv : validateCommandArgs args = none) (hb : (verifyBinary w s binaryPath).1 = none) :
    (c.err = some .DeadlineExceeded →
      executePlatformCommand w s (some c) binaryPath args =
        ((some ⟨"", "", -1⟩, some .DeadlineExceeded), (verifyBinary w s binaryPath).2)) ∧
    (c.err = some .Canceled →
      executePlatformCommand w s (some c) binaryPath args =
        ((some ⟨"", "", -1⟩, some ((w.commandErr binaryPath).getD .Canceled)),
          (verifyBinary w s binaryPath).2)) ∧
    ((verifyBinary w s binaryPath).2.spawned = s.spawned) := by
  simp only [verifyBinary] at hb
  refine ⟨?_, ?_, rfl⟩
  · intro hc
    cases hl : w.commandErr binaryPath <;>
      simp [executePlatformCommand, hv, verifyBinary, hb, cmdRun, hc, hl]
  · intro hc
    cases hl : w.commandErr binaryPath <;>
      simp [executePlatformCommand, hv, verifyBinary, hb, cmdRun, hc, hl]

/-- C10, amended, under an expired context. -/
theorem executePlatformCommand_done_context_witness :
    executePlatformCommand
        (simpleWorld "/usr/bin/terraform" (.ok ⟨0o755⟩) (exitsZero "Terraform v1.5.0"))
        ⟨0, []⟩ (some ⟨some 0, some .DeadlineExceeded⟩) "/usr/bin/terraform" ["version"] =
      ((some ⟨"", "", -1⟩, some .DeadlineExceeded),
        (verifyBinary (simpleWorld "/usr/bin/terraform" (.ok ⟨0o755⟩)
          (exitsZero "Terraform v1.5.0")) ⟨0, []⟩ "/usr/bin/terraform").2) :=
  (executePlatformCommand_done_context
    (simpleWorld "/usr/bin/terraform" (.ok ⟨0o755⟩) (exitsZero "Terraform v1.5.0"))
    ⟨0, []⟩ ⟨some 0, some .DeadlineExceeded⟩ "/usr/bin/terraform" ["version"]
    (by decide) (by decide)).1 rfl

/-! ## Detection -/

theorem debugPatterns_any (path : String) :
    debugPatterns.any (fun pattern => Contains path pattern) = true ↔
      (Contains path "dlv" = true ∨ Contains path "debug" = true) := by
  simp [debugPatterns]

/-- C8: the detection run by `init`.  When the parent's executable cannot be
resolved the config is (Unknown, ""); otherwise `binaryPath` is the resolved
path and the platform is Unknown when verification fails; else DebugServer,
with nothing spawned, when the path contains "dlv" or "debug"; else Unknown
when the execution of the binary with the single argument "version" returns an
error; else OpenTofu when the lower-cased stdout contains "tofu" and Terraform
when it does not.  Stdout "OpenTofu v1.6.0" gives OpenTofu, "Terraform v1.5.0"
gives Terraform, a non-zero exit and a timeout give Unknown. -/
theorem init_decision_table :
    (∀ (w : World) (s : State) (e : Error), detectExecutingBinary w = .error e →
      init w s = .returned (⟨PlatformUnknown, "", ""⟩, s)) ∧
    (∀ (w : World) (s : State) (path : String), detectExecutingBinary w = .ok path →
      ∃ plat st, init w s = .returned (⟨plat, path, ""⟩, st) ∧
        ((verifyBinary w s path).1 ≠ none → plat = PlatformUnknown ∧ st.spawned = s.spawned) ∧
        ((verifyBinary w s path).1 = none →
          ((Contains path "dlv" = true ∨ Contains path "debug" = true) →
            plat = PlatformDebugServer ∧ st.spawned = s.spawned) ∧
          (¬ (Contains path "dlv" = true ∨ Contains path "debug" = true) →
            ∃ out err,
              (executePlatformCommand w (verifyBinary w s path).2 (some versionContext) path
                ["version"]).1 = (out, err) ∧
              (err ≠ none → plat = PlatformUnknown) ∧
              (err = none → ∃ o, out = some o ∧
                (Contains (ToLower o.Stdout) "tofu" = true → plat = PlatformOpenTofu) ∧
                (Contains (ToLower o.Stdout) "tofu" = false → plat = PlatformTerraform))))) ∧
    init (simpleWorld "/usr/bin/tofu" (.ok ⟨0o755⟩) (exitsZero "OpenTofu v1.6.0")) ⟨0, []⟩ =
      .returned (⟨PlatformOpenTofu, "/usr/bin/tofu", ""⟩,
        ⟨3, [("/usr/bin/tofu", ["/usr/bin/tofu", "version"])]⟩) ∧
    init (simpleWorld "/usr/bin/terraform" (.ok ⟨0o755⟩) (exitsZero "Terraform v1.5.0"))
        ⟨0, []⟩ =
      .returned (⟨PlatformTerraform, "/usr/bin/terraform", ""⟩,
        ⟨3, [("/usr/bin/terraform", ["/usr/bin/terraform", "version"])]⟩) ∧
    init (simpleWorld "/usr/bin/tofu" (.ok ⟨0o755⟩) (exitsOne "OpenTofu v1.6.0")) ⟨0, []⟩ =
      .returned (⟨PlatformUnknown, "/usr/bin/tofu", ""⟩,
        ⟨3, [("/usr/bin/tofu", ["/usr/bin/tofu", "version"])]⟩) ∧
    init (simpleWorld "/usr/bin/tofu" (.ok ⟨0o755⟩) timedOut) ⟨0, []⟩ =
      .returned (⟨PlatformUnknown, "/usr/bin/tofu", ""⟩,
        ⟨3, [("/usr/bin/tofu", ["/usr/bin/tofu", "version"])]⟩) ∧
    init (simpleWorld "/home/dev/go/bin/dlv" (.ok ⟨0o755⟩) (exitsZero "OpenTofu v1.6.0"))
        ⟨0, []⟩ =
      .returned (⟨PlatformDebugServer, "/home/dev/go/bin/dlv", ""⟩, ⟨1, []⟩) ∧
    init (simpleWorld "/usr/bin/Debug" (.ok ⟨0o755⟩) (exitsZero "Terraform v1.5.0")) ⟨0, []⟩ =
      .returned (⟨PlatformTerraform, "/usr/bin/Debug", ""⟩,
        ⟨3, [("/usr/bin/Debug", ["/usr/bin/Debug", "version"])]⟩) := by
  refine ⟨?_, ?_, by decide, by decide, by decide, by decide, by decide, by decide⟩
  · intro w s e he
    simp [init, he, PlatformUnknown]
  · intro w s path hp
    cases hb : verifyStat (w.stat s.clock path) with
    | some e =>
      refine ⟨PlatformUnknown, { s with clock := s.clock + 1 }, ?_, ?_, ?_⟩
      · simp [init, hp, verifyBinary, hb, PlatformUnknown]
      · intro _; exact ⟨rfl, rfl⟩
      · intro h; simp [verifyBinary, hb] at h
    | none =>
      by_cases hd : Contains path "dlv" = true ∨ Contains path "debug" = true
      · refine ⟨PlatformDebugServer, { s with clock := s.clock + 1 }, ?_, ?_, ?_⟩
        · have hany := (debugPatterns_any path).mpr hd
          simp [init, hp, verifyBinary, hb, hany]
        · intro h; simp [verifyBinary, hb] at h
        · intro _
          exact ⟨fun _ => ⟨rfl, rfl⟩, fun h => absurd hd h⟩
      · have hany : debugPatterns.any (fun pattern => Contains path pattern) = false := by
          rw [← Bool.not_eq_true]
          exact fun h => hd ((debugPatterns_any path).mp h)
        have hno := executePlatformCommand_some_of_no_error w { s with clock := s.clock + 1 }
          (some versionContext) path ["version"]
        rcases hx : executePlatformCommand w { s with clock := s.clock + 1 }
          (some versionContext) path ["version"] with ⟨⟨out, err⟩, s2⟩
        rw [hx] at hno
        have hx2 : executePlatformCommand w { s with clock := s.clock + 1 }
            (some { deadline := some (10 * Second), err := none }) path ["version"] =
            ((out, err), s2) := hx
        cases err with
        | some e =>
          refine ⟨PlatformUnknown, s2, ?_, ?_, ?_⟩
          · simp [init, hp, verifyBinary, hb, hany, hx2, PlatformUnknown]
          · intro h; simp [verifyBinary, hb] at h
          · intro _
            refine ⟨fun h => absurd h hd, fun _ => ?_⟩
            refine ⟨out, some e, ?_, fun _ => rfl, fun h => by cases h⟩
            simp [verifyBinary, hx]
        | none =>
          obtain ⟨o, ho⟩ := hno rfl
          simp only at ho
          subst ho
          by_cases ht : Contains (ToLower o.Stdout) "tofu" = true
          · refine ⟨PlatformOpenTofu, s2, ?_, ?_, ?_⟩
            · simp [init, hp, verifyBinary, hb, hany, hx2, ht]
            · intro h; simp [verifyBinary, hb] at h
            · intro _
              refine ⟨fun h => absurd h hd, fun _ => ?_⟩
              refine ⟨some o, none, ?_, fun h => absurd rfl h, fun _ => ?_⟩
              · simp [verifyBinary, hx]
              · exact ⟨o, rfl, fun _ => rfl, fun h => by rw [ht] at h; cases h⟩
          · refine ⟨PlatformTerraform, s2, ?_, ?_, ?_⟩
            · simp [init, hp, verifyBinary, hb, hany, hx2, ht]
            · intro h; simp [verifyBinary, hb] at h
            · intro _
              refine ⟨fun h => absurd h hd, fun _ => ?_⟩
              refine ⟨some o, none, ?_, fun h => absurd rfl h, fun _ => ?_⟩
              · simp [verifyBinary, hx]
              · exact ⟨o, rfl, fun h => absurd h ht, fun _ => rfl⟩

/-- C8 at a parent process `/usr/bin/tofu` whose "version" prints
"OpenTofu v1.6.0". -/
theorem init_decision_table_witness :
    ∃ plat st,
      init (simpleWorld "/usr/bin/tofu" (.ok ⟨0o755⟩) (exitsZero "OpenTofu v1.6.0")) ⟨0, []⟩ =
        .returned (⟨plat, "/usr/bin/tofu", ""⟩, st) ∧
      ∃ out err,
        (executePlatformCommand
          (simpleWorld "/usr/bin/tofu" (.ok ⟨0o755⟩) (exitsZero "OpenTofu v1.6.0"))
          ⟨1, []⟩ (some versionContext) "/usr/bin/tofu" ["version"]).1 = (out, err) ∧
        (err = none → ∃ o, out = some o ∧
          (Contains (ToLower o.Stdout) "tofu" = true → plat = PlatformOpenTofu) ∧
          (Contains (ToLower o.Stdout) "tofu" = false → plat = PlatformTerraform)) := by
  obtain ⟨plat, st, h1, _, h3⟩ := init_decision_table.2.1
    (simpleWorld "/usr/bin/tofu" (.ok ⟨0o755⟩) (exitsZero "OpenTofu v1.6.0")) ⟨0, []⟩
    "/usr/bin/tofu" (by decide)
  obtain ⟨out, err, h4, _, h6⟩ := (h3 (by decide)).2 (by decide)
  exact ⟨plat, st, h1, out, err, h4, h6⟩

/-! ## The accessors `BinaryPath` and `Binary` -/

theorem getLast?_cons_of_some {α : Type} (a b : α) (t : List α) (h : t.getLast? = some b) :
    (a :: t).getLast? = some b := by
  cases t with
  | nil => cases h
  | cons x xs => rw [List.getLast?_cons_cons]; exact h

/-- The last segment cut by a one-character separator: it holds no separator,
and what stands before it is empty or ends with the separator. -/
theorem genSplit_last (c : Char) (l : List Char) :
    ∀ cur : List Char, c ∉ cur →
      ∃ pre base : List Char,
        (genSplit [c] 0 cur l).getLast? = some ⟨base⟩ ∧ c ∉ base ∧
          cur.reverse ++ l = pre ++ base ∧ (pre = [] ∨ pre.getLast? = some c) := by
  induction l with
  | nil =>
    intro cur hc
    exact ⟨[], cur.reverse, rfl, by simpa using hc, by simp, Or.inl rfl⟩
  | cons x xs ih =>
    intro cur hc
    by_cases hx : c = x
    · subst hx
      obtain ⟨pre, base, h1, h2, h3, h4⟩ := ih [] (List.not_mem_nil c)
      have hs : genSplit [c] 0 cur (c :: xs) = ⟨cur.reverse⟩ :: genSplit [c] 0 [] xs := by
        simp [genSplit, List.isPrefixOf]
      refine ⟨cur.reverse ++ c :: pre, base, ?_, h2, ?_, Or.inr ?_⟩
      · rw [hs]; exact getLast?_cons_of_some _ _ _ h1
      · simp only [List.reverse_nil, List.nil_append] at h3
        rw [h3]; simp
      · rcases h4 with h4 | h4
        · subst h4
          exact List.getLast?_concat _
        · rw [List.getLast?_append]
          rw [getLast?_cons_of_some c c pre h4]
          rfl
    · have hs : genSplit [c] 0 cur (x :: xs) = genSplit [c] 0 (x :: cur) xs := by
        simp [genSplit, List.isPrefixOf, hx]
      have hc2 : c ∉ x :: cur := by
        intro h
        rcases List.mem_cons.mp h with h | h
        · exact hx h
        · exact hc h
      obtain ⟨pre, base, h1, h2, h3, h4⟩ := ih (x :: cur) hc2
      refine ⟨pre, base, ?_, h2, ?_, h4⟩
      · rw [hs]; exact h1
      · rw [← h3]; simp

theorem Split_singleton (s : String) (c : Char) :
    Split s (String.singleton c) = genSplit [c] 0 [] s.data := by
  have hne : String.singleton c ≠ "" := by
    intro h
    have hd := congrArg String.data h
    cases hd
  unfold Split
  rw [if_neg hne]
  rfl

/-- What `Binary` returns for a non-empty `binaryPath`. -/
theorem Binary_split (sep : Char) (cfg : platformConfig) (p : Platform)
    (hb : cfg.binaryPath ≠ "") :
    ∃ pre base : String,
      Platform.Binary sep (some cfg) p = .returned base ∧ sep ∉ base.data ∧
        cfg.binaryPath = pre ++ base ∧ (pre = "" ∨ pre.data.getLast? = some sep) := by
  obtain ⟨pre, base, h1, h2, h3, h4⟩ :=
    genSplit_last sep cfg.binaryPath.data [] (List.not_mem_nil sep)
  refine ⟨⟨pre⟩, ⟨base⟩, ?_, h2, ?_, ?_⟩
  · rw [List.getLast?_eq_getElem?, ← Split_singleton] at h1
    simp only [Platform.Binary, if_neg hb, h1]
  · apply String.ext
    rw [String.data_append]
    simpa using h3
  · rcases h4 with h4 | h4
    · left; rw [h4]
    · right; exact h4

/-- C11: `Binary` returns the basename of `binaryPath` and never indexes out of
range: "" for an empty `binaryPath`; for a non-empty one a result without path
separator such that `binaryPath` is a part `pre` followed by the result, with
`pre` empty or ending in the separator; so a path without separator gives
itself and a path ending in the separator gives "".  `Binary` and `BinaryPath`
do not depend on the receiver, and `BinaryPath` returns `binaryPath`. -/
theorem Binary_basename :
    (∀ (sep : Char) (single : Option platformConfig) (p : Platform),
      Platform.Binary sep single p ≠ .indexOutOfRange) ∧
    (∀ (sep : Char) (cfg : platformConfig) (p : Platform), cfg.binaryPath = "" →
      Platform.Binary sep (some cfg) p = .returned "") ∧
    (∀ (sep : Char) (cfg : platformConfig) (p : Platform), cfg.binaryPath ≠ "" →
      ∃ pre base : String,
        Platform.Binary sep (some cfg) p = .returned base ∧ sep ∉ base.data ∧
          cfg.binaryPath = pre ++ base ∧ (pre = "" ∨ pre.data.getLast? = some sep)) ∧
    (∀ (sep : Char) (cfg : platformConfig) (p : Platform), sep ∉ cfg.binaryPath.data →
      Platform.Binary sep (some cfg) p = .returned cfg.binaryPath) ∧
    (∀ (sep : Char) (cfg : platformConfig) (p : Platform),
      cfg.binaryPath.data.getLast? = some sep →
      Platform.Binary sep (some cfg) p = .returned "") ∧
    (∀ (sep : Char) (single : Option platformConfig) (p q : Platform),
      Platform.Binary sep single p = Platform.Binary sep single q) ∧
    (∀ (single : Option platformConfig) (p q : Platform),
      Platform.BinaryPath single p = Platform.BinaryPath single q) ∧
    (∀ (cfg : platformConfig) (p : Platform),
      Platform.BinaryPath (some cfg) p = .returned cfg.binaryPath) ∧
    Platform.Binary '/' (some ⟨PlatformTerraform, "/usr/bin/terraform", ""⟩) PlatformTerraform =
      .returned "terraform" ∧
    Platform.Binary '/' (some ⟨PlatformOpenTofu, "tofu", ""⟩) PlatformUnknown =
      .returned "tofu" ∧
    Platform.Binary '/' (some ⟨PlatformUnknown, "/usr/bin/", ""⟩) PlatformUnknown =
      .returned "" := by
  refine ⟨?_, ?_, Binary_split, ?_, ?_, fun _ _ _ _ => rfl, fun _ _ _ => rfl,
    fun _ _ => rfl, by decide, by decide, by decide⟩
  · intro sep single p
    cases single with
    | none => simp [Platform.Binary]
    | some cfg =>
      by_cases hb : cfg.binaryPath = ""
      · simp [Platform.Binary, hb]
      · obtain ⟨pre, base, h1, _⟩ := Binary_split sep cfg p hb
        rw [h1]
        simp
  · intro sep cfg p hb
    simp [Platform.Binary, hb]
  · intro sep cfg p hs
    by_cases hb : cfg.binaryPath = ""
    · simp [Platform.Binary, hb]
    · obtain ⟨pre, base, h1, _, h3, h4⟩ := Binary_split sep cfg p hb
      have hd : cfg.binaryPath.data = pre.data ++ base.data := by
        rw [h3, String.data_append]
      have hpre : pre = "" := by
        rcases h4 with h4 | h4
        · exact h4
        · exfalso
          apply hs
          rw [hd]
          exact List.mem_append_left _ (List.mem_of_getLast?_eq_some h4)
      rw [h1, h3, hpre]
      rfl
  · intro sep cfg p hl
    have hb : cfg.binaryPath ≠ "" := by
      intro h
      rw [h] at hl
      cases hl
    obtain ⟨pre, base, h1, h2, h3, _⟩ := Binary_split sep cfg p hb
    have hd : cfg.binaryPath.data = pre.data ++ base.data := by
      rw [h3, String.data_append]
    have hbase : base.data = [] := by
      by_contra hne
      obtain ⟨x, hx⟩ := Option.isSome_iff_exists.mp
        (by simpa using hne : base.data.getLast?.isSome = true)
      have hlast : cfg.binaryPath.data.getLast? = some x := by
        rw [hd, List.getLast?_append, hx]
        rfl
      rw [hl] at hlast
      cases hlast
      exact h2 (List.mem_of_getLast?_eq_some hx)
    rw [h1]
    congr 1
    exact String.ext hbase

/-- C11 at the path `/usr/bin/terraform` with the separator `/`. -/
theorem Binary_basename_witness :
    ∃ pre base : String,
      Platform.Binary '/' (some ⟨PlatformTerraform, "/usr/bin/terraform", ""⟩)
          PlatformTerraform = .returned base ∧
        '/' ∉ base.data ∧ "/usr/bin/terraform" = pre ++ base ∧
        (pre = "" ∨ pre.data.getLast? = some '/') :=
  Binary_basename.2.2.1 '/' ⟨PlatformTerraform, "/usr/bin/terraform", ""⟩ PlatformTerraform
    (by decide)

end platform
